import Mathlib

/-!
# Verification of the CampusLink backend document layer

Shallow embedding of `src/main.py` and `src/schemas.py` (CampusLink backend):
the value/document model, the serialization helpers `serialize_doc` /
`serialize_list`, the per-entity record schemas with their validation, the
document-store adapter (`create_document` / `get_documents`, imported by
`main.py` from a `database` module that is not part of the source tree and is
therefore modelled from the spec), and the four list endpoints with their
filter construction, limit handling and in-memory sorting.
-/

set_option autoImplicit false

namespace CampusLink

/-- A BSON-style value as it occurs in this application's documents:
`ObjectId` (opaque, represented by a `Nat` tag), strings, integers, booleans,
datetimes (represented by a `Nat` timestamp), `None`/null, and lists of
strings (the `tags` field). -/
inductive Value where
  | oid : Nat → Value
  | str : String → Value
  | int : Int → Value
  | bool : Bool → Value
  | time : Nat → Value
  | null : Value
  | strList : List String → Value
  deriving DecidableEq, Repr

/-- A document: a Python `dict` from field name to value, as an ordered
association list (Python dicts preserve insertion order). -/
abbrev Doc := List (String × Value)

/-- The canonical string form of an ObjectId, `str(v)` in Python.  Opaque to
clients; modelled as the decimal rendering of the tag. -/
def oidToString (n : Nat) : String :=
  Nat.repr n

/-- Lookup `d[k]`: the value of the first pair whose key is `k`. -/
def dictGet : Doc → String → Option Value
  | [], _ => none
  | p :: ps, k => if p.1 = k then some p.2 else dictGet ps k

/-- `k in d` for a Python dict. -/
def dictHas : Doc → String → Bool
  | [], _ => false
  | p :: ps, k => if p.1 = k then true else dictHas ps k

/-- `d.pop(k)` (the removal part): drop every pair whose key is `k`. -/
def dictRemove : Doc → String → Doc
  | [], _ => []
  | p :: ps, k => if p.1 = k then dictRemove ps k else p :: dictRemove ps k

/-- `d[k] = v` on a Python dict: if `k` is present its value is updated in
place (keeping its position), otherwise the pair is appended at the end. -/
def dictSet (d : Doc) (k : String) (v : Value) : Doc :=
  if dictHas d k then d.map (fun p => if p.1 = k then (k, v) else p)
  else d ++ [(k, v)]

/-- The per-value part of `serialize_doc`: `str(v) if isinstance(v, ObjectId)
else v`. -/
def convertOid : Value → Value
  | .oid n => .str (oidToString n)
  | v => v

/-- `serialize_doc` from `src/main.py`: copy the document converting every
ObjectId value to its string form, then rename `_id` to `id`
(`out["id"] = out.pop("_id")`). -/
def serialize_doc (doc : Doc) : Doc :=
  let out := doc.map (fun p => (p.1, convertOid p.2))
  match dictGet out "_id" with
  | some v => dictSet (dictRemove out "_id") "id" v
  | none => out

/-- `serialize_list` from `src/main.py`. -/
def serialize_list (docs : List Doc) : List Doc :=
  docs.map serialize_doc

/-! ## Document store adapter

`main.py` imports `create_document` and `get_documents` from a `database`
module that is not part of the source tree; the adapter is therefore modelled
from the spec (§4.2 "Document Store Adapter", §3 invariants). -/

/-- A filter condition: an exact-match literal, or the `{"$in": [...]}`
membership predicate used for tag filtering. -/
inductive Cond where
  | eq : Value → Cond
  | inSet : List Value → Cond
  deriving DecidableEq, Repr

/-- A filter `dict` mapping field names to conditions. -/
abbrev Filter := List (String × Cond)

/-- Whether one condition accepts the (possibly absent) value of the filtered
field.  `eq` compares for equality; `inSet` is the spec's "membership in a set
of values" predicate: for an array-valued field (the `tags` sequence) the
document matches when some element of the field belongs to the requested set,
for a scalar field when the value itself does.  An absent field matches no
condition. -/
def condMatches : Cond → Option Value → Bool
  | .eq w, some u => decide (u = w)
  | .inSet ws, some (.strList l) => l.any (fun x => ws.any (fun w => decide (w = Value.str x)))
  | .inSet ws, some u => ws.any (fun w => decide (w = u))
  | _, none => false

/-- A document matches a filter when every condition accepts the value of its
field. -/
def matchesFilter (filt : Filter) (d : Doc) : Bool :=
  filt.all (fun kc => condMatches kc.2 (dictGet d kc.1))

/-- The state of the external document store: the documents of all collections
in insertion order, tagged with their collection name, plus the counter from
which fresh ObjectIds are drawn. -/
structure StoreState where
  docs : List (String × Doc)
  nextId : Nat
  deriving DecidableEq, Repr

/-- The store before any insertion. -/
def emptyStore : StoreState :=
  { docs := [], nextId := 0 }

/-- Modelled from the spec: `database.create_document` (imported by
`src/main.py` from a `database` module absent from the source tree).  Per
§4.2/§3: converts the validated record to a key-value document, assigns a
fresh, never-reused ObjectId as `_id` and a server-assigned creation timestamp
`created_at` (`now` is the server clock reading), appends the document to the
named collection, and returns the new identifier in its string form. -/
def create_document (s : StoreState) (coll : String) (record : Doc) (now : Nat) :
    String × StoreState :=
  let doc := record ++ [("created_at", Value.time now), ("_id", Value.oid s.nextId)]
  (oidToString s.nextId, { docs := s.docs ++ [(coll, doc)], nextId := s.nextId + 1 })

/-- Modelled from the spec: `database.get_documents` (imported by
`src/main.py` from a `database` module absent from the source tree).  Per
§4.2: returns the documents of the named collection that match the filter, at
most `limit` of them; no ordering is guaranteed by the store (this model
returns insertion order); zero matches give the empty sequence, not an
error. -/
def get_documents (s : StoreState) (coll : String) (filt : Filter) (limit : Nat) :
    List Doc :=
  (((s.docs.filter (fun cd => cd.1 = coll && matchesFilter filt cd.2)).map Prod.snd).take limit)

/-! ## Record definitions (`src/schemas.py`) -/

/-- `Role = Literal["student", "professor", "company"]`. -/
inductive Role where
  | student
  | professor
  | company
  deriving DecidableEq, Repr

/-- The string a role is written as. -/
def Role.toStr : Role → String
  | .student => "student"
  | .professor => "professor"
  | .company => "company"

/-- Parse a raw role string against the three allowed literals. -/
def Role.ofStr? (s : String) : Option Role :=
  if s = "student" then some .student
  else if s = "professor" then some .professor
  else if s = "company" then some .company
  else none

/-- `PostType = Literal["question", "internship_request", "discussion"]`. -/
inductive PostType where
  | question
  | internship_request
  | discussion
  deriving DecidableEq, Repr

/-- The string a post type is written as. -/
def PostType.toStr : PostType → String
  | .question => "question"
  | .internship_request => "internship_request"
  | .discussion => "discussion"

/-- Parse a raw post-type string against the three allowed literals. -/
def PostType.ofStr? (s : String) : Option PostType :=
  if s = "question" then some .question
  else if s = "internship_request" then some .internship_request
  else if s = "discussion" then some .discussion
  else none

/-- A validated `User` record (`class User(BaseModel)` in `src/schemas.py`). -/
structure User where
  name : String
  email : String
  role : Role
  college : Option String
  department : Option String
  company_name : Option String
  headline : Option String
  verified : Bool
  deriving DecidableEq, Repr

/-- A validated `Post` record. -/
structure Post where
  type : PostType
  title : String
  content : String
  tags : List String
  created_by : String
  deriving DecidableEq, Repr

/-- A validated `Comment` record. -/
structure Comment where
  post_id : String
  content : String
  created_by : String
  parent_id : Option String
  deriving DecidableEq, Repr

/-- A validated `Offer` record. -/
structure Offer where
  title : String
  description : String
  location : Option String
  stipend : Option String
  post_id : Option String
  created_by : String
  deriving DecidableEq, Repr

/-- An optional string field rendered into a document (`None` becomes BSON
null). -/
def optStr : Option String → Value
  | some s => .str s
  | none => .null

/-- The key-value document of a `User` record, fields in declaration order
(pydantic `.dict()` on the model `main.py` hands to `create_document`). -/
def User.toDoc (u : User) : Doc :=
  [("name", .str u.name), ("email", .str u.email), ("role", .str u.role.toStr),
   ("college", optStr u.college), ("department", optStr u.department),
   ("company_name", optStr u.company_name), ("headline", optStr u.headline),
   ("verified", .bool u.verified)]

/-- The key-value document of a `Post` record. -/
def Post.toDoc (p : Post) : Doc :=
  [("type", .str p.type.toStr), ("title", .str p.title), ("content", .str p.content),
   ("tags", .strList p.tags), ("created_by", .str p.created_by)]

/-- The key-value document of a `Comment` record. -/
def Comment.toDoc (c : Comment) : Doc :=
  [("post_id", .str c.post_id), ("content", .str c.content),
   ("created_by", .str c.created_by), ("parent_id", optStr c.parent_id)]

/-- The key-value document of an `Offer` record. -/
def Offer.toDoc (o : Offer) : Doc :=
  [("title", .str o.title), ("description", .str o.description),
   ("location", optStr o.location), ("stipend", optStr o.stipend),
   ("post_id", optStr o.post_id), ("created_by", .str o.created_by)]

/-- A raw (unvalidated) user request body: each declared field either present
or missing. -/
structure RawUser where
  name : Option String
  email : Option String
  role : Option String
  college : Option String
  department : Option String
  company_name : Option String
  headline : Option String
  verified : Option Bool
  deriving DecidableEq, Repr

/-- Split a character list at every occurrence of `c` (Python `str.split`). -/
def splitOnChar (c : Char) : List Char → List (List Char)
  | [] => [[]]
  | x :: xs =>
    match splitOnChar c xs with
    | [] => [[x]]
    | y :: ys => if x = c then [] :: y :: ys else (x :: y) :: ys

/-- Modelled from the spec: pydantic's `EmailStr` validator is an external
library collaborator; the spec only requires "valid email format", abstracted
here as a syntactic check (exactly one `@`, nonempty local part, and a dotted
domain with nonempty labels). -/
def isValidEmail (s : String) : Bool :=
  match splitOnChar '@' s.data with
  | [localPart, domain] =>
    !(localPart.isEmpty) && !(domain.isEmpty)
      && (splitOnChar '.' domain).length ≥ 2
      && !((splitOnChar '.' domain).any List.isEmpty)
  | _ => false

/-- The fields of a raw user body that fail validation against the `User`
schema: missing required fields, a malformed email, or a role outside the
three allowed literals. -/
def userErrors (r : RawUser) : List String :=
  (match r.name with
   | none => ["name"]
   | some _ => []) ++
  (match r.email with
   | none => ["email"]
   | some e => if isValidEmail e then [] else ["email"]) ++
  (match r.role with
   | none => ["role"]
   | some ro => if (Role.ofStr? ro).isSome then [] else ["role"])

/-- The structured errors an operation can surface: pydantic/FastAPI
validation failure naming the offending fields, a Python `TypeError` (from
comparing incomparable sort keys), and — present in the taxonomy only to state
that it is never produced — `notFound`. -/
inductive ApiError where
  | validation : List String → ApiError
  | typeError : ApiError
  | notFound : ApiError
  deriving DecidableEq, Repr

/-- Validation of a raw user body against the `User` schema, as pydantic
performs it before the `create_user` handler runs: on failure the write is
rejected with the offending fields, never coercing or dropping data; on
success the validated record keeps every supplied value (`verified` defaults
to `False`). -/
def validate_user (r : RawUser) : Except ApiError User :=
  match r.name, r.email, r.role with
  | some n, some e, some ro =>
    match Role.ofStr? ro with
    | some roleV =>
      if (userErrors r).isEmpty then
        .ok { name := n, email := e, role := roleV, college := r.college,
              department := r.department, company_name := r.company_name,
              headline := r.headline, verified := r.verified.getD false }
      else .error (.validation (userErrors r))
    | none => .error (.validation (userErrors r))
  | _, _, _ => .error (.validation (userErrors r))

/-! ## Endpoints (`src/main.py`)

The list endpoints build a filter from their query parameters (a parameter
that is `None` or `""` is falsy in Python, so `if param:` drops it), call
`get_documents`, re-sort in memory by `d.get("created_at")` where required,
and serialize.  `limit` is a FastAPI query parameter with a default and
`ge`/`le` bounds; an out-of-range value is rejected with a validation error
before the handler runs. -/

/-- `d.get("created_at")`-style lookup: absent fields yield Python `None`. -/
def docGetD (d : Doc) (k : String) : Value :=
  (dictGet d k).getD .null

/-- Python's `<` on the values that can appear as sort keys: comparable within
datetimes, integers, strings and booleans; any other combination (in
particular `None` against a datetime) raises `TypeError`. -/
def pyLt : Value → Value → Except ApiError Bool
  | .time a, .time b => .ok (decide (a < b))
  | .int a, .int b => .ok (decide (a < b))
  | .str a, .str b => .ok (decide (a < b))
  | .bool a, .bool b => .ok (decide (a < b))
  | _, _ => .error .typeError

/-- Insert `x` into an already-sorted prefix: `x` goes immediately before the
first element `y` with `before x y`, after all ties (so the sort below is
stable, like Python's). -/
def insertBeforeM (before : Doc → Doc → Except ApiError Bool) (x : Doc) :
    List Doc → Except ApiError (List Doc)
  | [] => .ok [x]
  | y :: ys => do
    let b ← before x y
    if b then pure (x :: y :: ys)
    else do
      let r ← insertBeforeM before x ys
      pure (y :: r)

/-- `list.sort(key=..., reverse=...)`: a stable comparison sort, modelled as
stable insertion sort processing the list left to right; a `TypeError` from a
key comparison aborts the sort.  `before x y` means `x` must be placed
strictly before `y`. -/
def pySort (before : Doc → Doc → Except ApiError Bool) (docs : List Doc) :
    Except ApiError (List Doc) :=
  docs.foldlM (fun acc x => insertBeforeM before x acc) []

/-- `key=lambda d: d.get("created_at")` with `reverse=True` (newest first):
`x` strictly precedes `y` when `y`'s key is less than `x`'s. -/
def byCreatedDesc (a b : Doc) : Except ApiError Bool :=
  pyLt (docGetD b "created_at") (docGetD a "created_at")

/-- `key=lambda d: d.get("created_at")` ascending (oldest first). -/
def byCreatedAsc (a b : Doc) : Except ApiError Bool :=
  pyLt (docGetD a "created_at") (docGetD b "created_at")

/-- The filter `list_users` builds: `if role: filt["role"] = role`. -/
def usersFilter (role : Option String) : Filter :=
  match role with
  | some r => if r = "" then [] else [("role", .eq (.str r))]
  | none => []

/-- `list_users` from `src/main.py`: optional `role` filter, fixed
`limit=200`, no sort. -/
def list_users (role : Option String) (s : StoreState) : List Doc :=
  let docs := get_documents s "user" (usersFilter role) 200
  serialize_list docs

/-- The filter `list_posts` builds, in source order: `type`, then
`created_by`, then `tags` as `{"$in": [tag]}`; falsy parameters are
dropped. -/
def postsFilter (type tag created_by : Option String) : Filter :=
  let filt : Filter := []
  let filt := match type with
    | some v => if v = "" then filt else filt ++ [("type", .eq (.str v))]
    | none => filt
  let filt := match created_by with
    | some v => if v = "" then filt else filt ++ [("created_by", .eq (.str v))]
    | none => filt
  match tag with
  | some v => if v = "" then filt else filt ++ [("tags", .inSet [.str v])]
  | none => filt

/-- `list_posts` from `src/main.py`: optional `type`/`tag`/`created_by`
filters, `limit: int = Query(50, ge=1, le=200)` (an absent query parameter
takes the default 50, a supplied out-of-range one is rejected), then an
in-memory sort newest first and serialization. -/
def list_posts (type tag created_by : Option String) (limit : Option Nat)
    (s : StoreState) : Except ApiError (List Doc) :=
  let lim := limit.getD 50
  if lim < 1 ∨ 200 < lim then .error (.validation ["limit"]) else
  let docs := get_documents s "post" (postsFilter type tag created_by) lim
  match pySort byCreatedDesc docs with
  | .ok sorted => .ok (serialize_list sorted)
  | .error e => .error e

/-- The filter `list_comments` builds: `{"post_id": post_id}` (required). -/
def commentsFilter (post_id : String) : Filter :=
  [("post_id", .eq (.str post_id))]

/-- `list_comments` from `src/main.py`: required `post_id`,
`limit: int = Query(100, ge=1, le=500)`, in-memory sort oldest first,
serialization. -/
def list_comments (post_id : String) (limit : Option Nat) (s : StoreState) :
    Except ApiError (List Doc) :=
  let lim := limit.getD 100
  if lim < 1 ∨ 500 < lim then .error (.validation ["limit"]) else
  let docs := get_documents s "comment" (commentsFilter post_id) lim
  match pySort byCreatedAsc docs with
  | .ok sorted => .ok (serialize_list sorted)
  | .error e => .error e

/-- The filter `list_offers` builds, in source order: `post_id`, then
`created_by`; falsy parameters are dropped. -/
def offersFilter (post_id created_by : Option String) : Filter :=
  let filt : Filter := []
  let filt := match post_id with
    | some v => if v = "" then filt else filt ++ [("post_id", .eq (.str v))]
    | none => filt
  match created_by with
  | some v => if v = "" then filt else filt ++ [("created_by", .eq (.str v))]
  | none => filt

/-- `list_offers` from `src/main.py`: optional `post_id`/`created_by`
filters, `limit: int = Query(100, ge=1, le=300)`, in-memory sort newest
first, serialization. -/
def list_offers (post_id created_by : Option String) (limit : Option Nat)
    (s : StoreState) : Except ApiError (List Doc) :=
  let lim := limit.getD 100
  if lim < 1 ∨ 300 < lim then .error (.validation ["limit"]) else
  let docs := get_documents s "offer" (offersFilter post_id created_by) lim
  match pySort byCreatedDesc docs with
  | .ok sorted => .ok (serialize_list sorted)
  | .error e => .error e

/-- The `create_user` handler body: insert the validated record, return the
new id string (`{"id": inserted_id}`). -/
def create_user (user : User) (now : Nat) (s : StoreState) : String × StoreState :=
  create_document s "user" user.toDoc now

/-- The full `POST /api/users` write: pydantic validation of the raw body
(rejecting the request before the handler, so before any store call), then
the `create_user` handler. -/
def create_user_api (r : RawUser) (now : Nat) (s : StoreState) :
    Except ApiError (String × StoreState) :=
  match validate_user r with
  | .ok u => .ok (create_user u now s)
  | .error e => .error e

/-- The `create_post` handler body. -/
def create_post (post : Post) (now : Nat) (s : StoreState) : String × StoreState :=
  create_document s "post" post.toDoc now

/-- The `create_comment` handler body. -/
def create_comment (comment : Comment) (now : Nat) (s : StoreState) : String × StoreState :=
  create_document s "comment" comment.toDoc now

/-- The `create_offer` handler body. -/
def create_offer (offer : Offer) (now : Nat) (s : StoreState) : String × StoreState :=
  create_document s "offer" offer.toDoc now

/-! ## Dictionary and serialization lemmas -/

theorem convertOid_convertOid (v : Value) : convertOid (convertOid v) = convertOid v := by
  cases v <;> rfl

theorem convertOid_ne_oid (v : Value) (n : Nat) : convertOid v ≠ Value.oid n := by
  cases v <;> simp [convertOid]

theorem dictGet_map_convert (d : Doc) (k : String) :
    dictGet (d.map (fun p => (p.1, convertOid p.2))) k = (dictGet d k).map convertOid := by
  induction d with
  | nil => rfl
  | cons p ps ih =>
    by_cases h : p.1 = k <;> simp [dictGet, h, ih]

theorem map_convert_idem (d : Doc) :
    (d.map (fun p => (p.1, convertOid p.2))).map (fun p => (p.1, convertOid p.2))
      = d.map (fun p => (p.1, convertOid p.2)) := by
  rw [List.map_map]
  apply List.map_congr_left
  intro p _
  simp [Function.comp, convertOid_convertOid]

theorem map_convert_fix (d : Doc) (h : ∀ p ∈ d, convertOid p.2 = p.2) :
    d.map (fun p => (p.1, convertOid p.2)) = d := by
  induction d with
  | nil => rfl
  | cons p ps ih =>
    have hp := h p (by simp)
    simp only [List.map_cons, hp]
    rw [ih (fun q hq => h q (by simp [hq]))]

theorem dictGet_dictRemove_self (d : Doc) (k : String) :
    dictGet (dictRemove d k) k = none := by
  induction d with
  | nil => rfl
  | cons p ps ih =>
    by_cases h : p.1 = k <;> simp [dictRemove, dictGet, h, ih]

theorem dictGet_dictRemove_ne (d : Doc) (k k' : String) (h : k' ≠ k) :
    dictGet (dictRemove d k) k' = dictGet d k' := by
  induction d with
  | nil => rfl
  | cons p ps ih =>
    by_cases hp : p.1 = k
    · have hp' : ¬ (p.1 = k') := by rw [hp]; exact fun e => h e.symm
      rw [dictRemove, if_pos hp, dictGet, if_neg hp', ih]
    · rw [dictRemove, if_neg hp, dictGet, dictGet, ih]

theorem dictGet_append_of_some (d1 d2 : Doc) (k : String) (v : Value)
    (h : dictGet d1 k = some v) : dictGet (d1 ++ d2) k = some v := by
  induction d1 with
  | nil => simp [dictGet] at h
  | cons p ps ih =>
    by_cases hp : p.1 = k <;> simp_all [dictGet, hp]

theorem dictGet_append_of_none (d1 d2 : Doc) (k : String)
    (h : dictGet d1 k = none) : dictGet (d1 ++ d2) k = dictGet d2 k := by
  induction d1 with
  | nil => rfl
  | cons p ps ih =>
    by_cases hp : p.1 = k <;> simp_all [dictGet, hp]

theorem dictHas_eq_false_iff (d : Doc) (k : String) :
    dictHas d k = false ↔ dictGet d k = none := by
  induction d with
  | nil => simp [dictHas, dictGet]
  | cons p ps ih =>
    by_cases hp : p.1 = k <;> simp [dictHas, dictGet, hp, ih]

theorem dictHas_dictRemove_self (d : Doc) (k : String) :
    dictHas (dictRemove d k) k = false := by
  rw [dictHas_eq_false_iff]
  exact dictGet_dictRemove_self d k

theorem dictSet_of_not_has (d : Doc) (k : String) (v : Value)
    (h : dictHas d k = false) : dictSet d k v = d ++ [(k, v)] := by
  simp [dictSet, h]

theorem dictGet_map_replace_self (d : Doc) (k : String) (v : Value)
    (h : dictHas d k = true) :
    dictGet (d.map (fun p => if p.1 = k then (k, v) else p)) k = some v := by
  induction d with
  | nil => simp [dictHas] at h
  | cons p ps ih =>
    by_cases hp : p.1 = k
    · simp [List.map_cons, if_pos hp, dictGet]
    · have hps : dictHas ps k = true := by
        rw [dictHas, if_neg hp] at h; exact h
      simp only [List.map_cons, if_neg hp, dictGet, if_neg hp, ih hps]

theorem dictGet_map_replace_ne (d : Doc) (k k' : String) (v : Value) (h : k' ≠ k) :
    dictGet (d.map (fun p => if p.1 = k then (k, v) else p)) k' = dictGet d k' := by
  induction d with
  | nil => rfl
  | cons p ps ih =>
    by_cases hp : p.1 = k
    · have hk : ¬ (k = k') := fun e => h e.symm
      have hp' : ¬ (p.1 = k') := by rw [hp]; exact hk
      simp only [List.map_cons, if_pos hp, dictGet, if_neg hk, if_neg hp', ih]
    · simp only [List.map_cons, if_neg hp, dictGet, ih]

theorem dictGet_dictSet_self (d : Doc) (k : String) (v : Value) :
    dictGet (dictSet d k v) k = some v := by
  by_cases h : dictHas d k
  · rw [dictSet, if_pos h]
    exact dictGet_map_replace_self d k v h
  · rw [dictSet_of_not_has d k v (by simpa using h)]
    rw [dictGet_append_of_none _ _ _ ((dictHas_eq_false_iff d k).mp (by simpa using h))]
    simp [dictGet]

theorem dictGet_dictSet_ne (d : Doc) (k k' : String) (v : Value) (h : k' ≠ k) :
    dictGet (dictSet d k v) k' = dictGet d k' := by
  by_cases hh : dictHas d k
  · rw [dictSet, if_pos hh]
    exact dictGet_map_replace_ne d k k' v h
  · rw [dictSet_of_not_has d k v (by simpa using hh)]
    cases hg : dictGet d k' with
    | some w => exact dictGet_append_of_some _ _ _ _ hg
    | none =>
      rw [dictGet_append_of_none _ _ _ hg]
      simp only [dictGet]
      rw [if_neg (fun e : k = k' => h e.symm)]

theorem mem_dictSet (d : Doc) (k : String) (v : Value) (p : String × Value)
    (h : p ∈ dictSet d k v) : p ∈ d ∨ p.2 = v := by
  by_cases hh : dictHas d k
  · rw [dictSet, if_pos hh] at h
    rcases List.mem_map.mp h with ⟨q, hq, he⟩
    by_cases hp : q.1 = k
    · right; rw [if_pos hp] at he; rw [← he]
    · left; rw [if_neg hp] at he; exact he ▸ hq
  · rw [dictSet_of_not_has d k v (by simpa using hh)] at h
    rcases List.mem_append.mp h with h1 | h1
    · exact Or.inl h1
    · right
      have : p = (k, v) := by simpa using h1
      rw [this]

theorem mem_dictRemove (d : Doc) (k : String) (p : String × Value)
    (h : p ∈ dictRemove d k) : p ∈ d := by
  induction d with
  | nil => simp [dictRemove] at h
  | cons q qs ih =>
    by_cases hq : q.1 = k
    · simp only [dictRemove, hq, if_true] at h
      exact List.mem_cons_of_mem _ (ih h)
    · simp only [dictRemove, hq, if_false] at h
      rcases List.mem_cons.mp h with h1 | h1
      · exact h1 ▸ List.mem_cons_self _ _
      · exact List.mem_cons_of_mem _ (ih h1)

theorem serialize_doc_eq_none (doc : Doc)
    (h : dictGet (doc.map (fun p => (p.1, convertOid p.2))) "_id" = none) :
    serialize_doc doc = doc.map (fun p => (p.1, convertOid p.2)) := by
  simp only [serialize_doc, h]

theorem serialize_doc_eq_some (doc : Doc) (v : Value)
    (h : dictGet (doc.map (fun p => (p.1, convertOid p.2))) "_id" = some v) :
    serialize_doc doc
      = dictSet (dictRemove (doc.map (fun p => (p.1, convertOid p.2))) "_id") "id" v := by
  simp only [serialize_doc, h]

theorem serialize_doc_values_fixed (doc : Doc) (p : String × Value)
    (h : p ∈ serialize_doc doc) : convertOid p.2 = p.2 := by
  have hout : ∀ q ∈ doc.map (fun q => (q.1, convertOid q.2)), convertOid q.2 = q.2 := by
    intro q hq
    rcases List.mem_map.mp hq with ⟨r, _, he⟩
    rw [← he]
    exact convertOid_convertOid r.2
  cases hid : dictGet (doc.map (fun q => (q.1, convertOid q.2))) "_id" with
  | none =>
    rw [serialize_doc_eq_none doc hid] at h
    exact hout p h
  | some v =>
    rw [serialize_doc_eq_some doc v hid] at h
    have hv : convertOid v = v := by
      rw [dictGet_map_convert] at hid
      cases hg : dictGet doc "_id" with
      | none => rw [hg] at hid; exact absurd hid (by simp)
      | some u =>
        rw [hg] at hid
        have h2 : convertOid u = v := Option.some.inj hid
        rw [← h2]
        exact convertOid_convertOid u
    rcases mem_dictSet _ _ _ _ h with h1 | h1
    · exact hout p (mem_dictRemove _ _ _ h1)
    · rw [h1]; exact hv

theorem dictGet_serialize_doc_id_none (doc : Doc) :
    dictGet (serialize_doc doc) "_id" = none := by
  cases hid : dictGet (doc.map (fun q => (q.1, convertOid q.2))) "_id" with
  | none => rw [serialize_doc_eq_none doc hid]; exact hid
  | some v =>
    rw [serialize_doc_eq_some doc v hid]
    rw [dictGet_dictSet_ne _ _ _ _ (by decide)]
    exact dictGet_dictRemove_self _ _

theorem serialize_doc_idem (doc : Doc) :
    serialize_doc (serialize_doc doc) = serialize_doc doc := by
  have h1 : (serialize_doc doc).map (fun p => (p.1, convertOid p.2)) = serialize_doc doc :=
    map_convert_fix (serialize_doc doc) (fun p hp => serialize_doc_values_fixed doc p hp)
  have h2 : dictGet ((serialize_doc doc).map (fun p => (p.1, convertOid p.2))) "_id" = none := by
    rw [h1]; exact dictGet_serialize_doc_id_none doc
  rw [serialize_doc_eq_none (serialize_doc doc) h2]
  exact h1

/-- C3: Serialization is idempotent: applying `serialize_doc` to an
already-serialized document yields the same document — the serialized document
has no `_id` field left to rename and no ObjectId values left to convert, so a
second pass changes nothing (neither the `id` field nor any other field). -/
theorem claim_C3 (doc : Doc) :
    serialize_doc (serialize_doc doc) = serialize_doc doc ∧
      dictGet (serialize_doc doc) "_id" = none :=
  ⟨serialize_doc_idem doc, dictGet_serialize_doc_id_none doc⟩

theorem dictGet_serialize_doc_of_ne (doc : Doc) (k : String) (v : Value)
    (hid : dictHas doc "id" = false) (hget : dictGet doc k = some v)
    (hkne : k ≠ "_id") :
    dictGet (serialize_doc doc) k = some (convertOid v) := by
  have hk : k ≠ "id" := by
    intro e
    rw [e] at hget
    rw [(dictHas_eq_false_iff doc "id").mp hid] at hget
    exact Option.noConfusion hget
  cases hscrut : dictGet (doc.map (fun p => (p.1, convertOid p.2))) "_id" with
  | none =>
    rw [serialize_doc_eq_none _ hscrut, dictGet_map_convert, hget]
    rfl
  | some w =>
    rw [serialize_doc_eq_some _ _ hscrut, dictGet_dictSet_ne _ _ _ _ hk,
      dictGet_dictRemove_ne _ _ _ hkne, dictGet_map_convert, hget]
    rfl

theorem dictGet_serialize_doc_id (doc : Doc) (v : Value)
    (hget : dictGet doc "_id" = some v) :
    dictGet (serialize_doc doc) "id" = some (convertOid v) := by
  have hscrut : dictGet (doc.map (fun p => (p.1, convertOid p.2))) "_id"
      = some (convertOid v) := by
    rw [dictGet_map_convert, hget]
    rfl
  rw [serialize_doc_eq_some _ _ hscrut, dictGet_dictSet_self]

/-- C2: for a well-formed document (one not already carrying the public `id`
field), serialization converts every ObjectId value to its canonical string
form (no ObjectId survives), renames the internal `_id` field to the public
`id` field, leaves the value of every other field unchanged apart from that
conversion, and on sequences of documents is length- and order-preserving
(position `i` of the output is the serialization of position `i` of the
input).  Totality ("never fails") is by construction: `serialize_doc` is a
total function. -/
theorem claim_C2 (doc : Doc) (docs : List Doc) (i : Nat)
    (hid : dictHas doc "id" = false) :
    (∀ k v, dictGet doc k = some v → k ≠ "_id" →
        dictGet (serialize_doc doc) k = some (convertOid v)) ∧
    (∀ n, dictGet doc "_id" = some (Value.oid n) →
        dictGet (serialize_doc doc) "id" = some (Value.str (oidToString n))) ∧
    dictHas (serialize_doc doc) "_id" = false ∧
    (∀ p ∈ serialize_doc doc, ∀ n, p.2 ≠ Value.oid n) ∧
    (serialize_list docs).length = docs.length ∧
    (serialize_list docs)[i]? = (docs[i]?).map serialize_doc := by
  refine ⟨?_, ?_, ?_, ?_, ?_, ?_⟩
  · intro k v hget hkne
    exact dictGet_serialize_doc_of_ne doc k v hid hget hkne
  · intro n hget
    exact dictGet_serialize_doc_id doc _ hget
  · exact (dictHas_eq_false_iff _ _).mpr (dictGet_serialize_doc_id_none doc)
  · intro p hp n hn
    have hfix := serialize_doc_values_fixed doc p hp
    rw [hn] at hfix
    exact absurd hfix (by simp [convertOid])
  · exact List.length_map _ _
  · exact List.getElem?_map serialize_doc docs i

/-- Witness for C2 at a concrete document and sequence. -/
theorem claim_C2_witness :
    dictHas [(("_id" : String), Value.oid 3), ("x", Value.str "a")] "id" = false ∧
    dictGet (serialize_doc [("_id", Value.oid 3), ("x", Value.str "a")]) "id"
      = some (Value.str (oidToString 3)) :=
  ⟨by decide, (claim_C2 [("_id", Value.oid 3), ("x", Value.str "a")] [] 0 (by decide)).2.1
      3 (by decide)⟩

/-- C9: supplying an optional filter parameter as the empty string is falsy in
Python (`if param:`), so the parameter is dropped from the filter and the
operation behaves exactly as if it were absent: `role` for Users; `type`,
`tag`, `created_by` for Posts; `post_id`, `created_by` for Offers. -/
theorem claim_C9 (s : StoreState) (ty tg cb pid : Option String) (lim : Option Nat) :
    list_users (some "") s = list_users none s ∧
    list_posts (some "") tg cb lim s = list_posts none tg cb lim s ∧
    list_posts ty (some "") cb lim s = list_posts ty none cb lim s ∧
    list_posts ty tg (some "") lim s = list_posts ty tg none lim s ∧
    list_offers (some "") cb lim s = list_offers none cb lim s ∧
    list_offers pid (some "") lim s = list_offers pid none lim s := by
  refine ⟨rfl, rfl, ?_, ?_, rfl, ?_⟩
  · cases ty with
    | none => rfl
    | some v => by_cases hv : v = "" <;> simp [list_posts, postsFilter, hv]
  · cases ty with
    | none => rfl
    | some v => by_cases hv : v = "" <;> simp [list_posts, postsFilter, hv]
  · cases pid with
    | none => rfl
    | some v => by_cases hv : v = "" <;> simp [list_offers, offersFilter, hv]

theorem validate_user_bad_role (r : RawUser) (ro : String) (hrole : r.role = some ro)
    (hro : Role.ofStr? ro = none) :
    validate_user r = .error (.validation (userErrors r)) := by
  rcases r with ⟨nm, em, rl, c1, c2, c3, c4, vf⟩
  simp only at hrole
  subst hrole
  cases nm <;> cases em <;> simp [validate_user, hro]

theorem role_mem_userErrors (r : RawUser) (ro : String) (hrole : r.role = some ro)
    (hro : Role.ofStr? ro = none) : "role" ∈ userErrors r := by
  rcases r with ⟨nm, em, rl, c1, c2, c3, c4, vf⟩
  simp only at hrole
  subst hrole
  simp [userErrors, hro]

/-- C7: a user write whose `role` is outside the three allowed literals (for
example `"admin"`) is rejected by schema validation before the handler — and
hence before any store call — with a structured error naming the offending
`role` field; no document is created (the operation never returns a new store
state). -/
theorem claim_C7 (r : RawUser) (ro : String) (now : Nat) (s : StoreState)
    (hrole : r.role = some ro)
    (hst : ro ≠ "student") (hpr : ro ≠ "professor") (hco : ro ≠ "company") :
    create_user_api r now s = .error (.validation (userErrors r)) ∧
    "role" ∈ userErrors r ∧
    ∀ out, create_user_api r now s ≠ .ok out := by
  have hro : Role.ofStr? ro = none := by
    simp [Role.ofStr?, hst, hpr, hco]
  have hval := validate_user_bad_role r ro hrole hro
  refine ⟨?_, role_mem_userErrors r ro hrole hro, ?_⟩
  · simp [create_user_api, hval]
  · intro out hok
    rw [create_user_api, hval] at hok
    exact Except.noConfusion hok

/-- Witness for C7: the spec's own example, `role = "admin"`. -/
theorem claim_C7_witness :
    create_user_api
        { name := some "Ada", email := some "ada@uni.edu", role := some "admin",
          college := none, department := none, company_name := none,
          headline := none, verified := none } 0 emptyStore
      = .error (.validation ["role"]) ∧
    "role" ∈ (["role"] : List String) := by
  have h := claim_C7
      { name := some "Ada", email := some "ada@uni.edu", role := some "admin",
        college := none, department := none, company_name := none,
        headline := none, verified := none } "admin" 0 emptyStore rfl
      (by decide) (by decide) (by decide)
  have h2 : userErrors
      { name := some "Ada", email := some "ada@uni.edu", role := some "admin",
        college := none, department := none, company_name := none,
        headline := none, verified := none } = ["role"] := by decide
  exact ⟨h2 ▸ h.1, by simp⟩

/-! ## Sort lemmas -/

/-- Whether a document carries a datetime-valued `created_at` field (the
precondition under which the read-side sorts are well-defined). -/
def hasTimeKey (d : Doc) : Bool :=
  match dictGet d "created_at" with
  | some (.time _) => true
  | _ => false

theorem byCreatedDesc_ok (a b : Doc) (ha : hasTimeKey a = true)
    (hb : hasTimeKey b = true) : ∃ r, byCreatedDesc a b = .ok r := by
  unfold hasTimeKey at ha hb
  unfold byCreatedDesc docGetD
  cases hga : dictGet a "created_at" with
  | none => rw [hga] at ha; simp at ha
  | some va =>
    cases hgb : dictGet b "created_at" with
    | none => rw [hgb] at hb; simp at hb
    | some vb =>
      rw [hga] at ha
      rw [hgb] at hb
      cases va <;> simp at ha
      cases vb <;> simp at hb
      exact ⟨_, rfl⟩

theorem byCreatedAsc_ok (a b : Doc) (ha : hasTimeKey a = true)
    (hb : hasTimeKey b = true) : ∃ r, byCreatedAsc a b = .ok r := by
  unfold hasTimeKey at ha hb
  unfold byCreatedAsc docGetD
  cases hga : dictGet a "created_at" with
  | none => rw [hga] at ha; simp at ha
  | some va =>
    cases hgb : dictGet b "created_at" with
    | none => rw [hgb] at hb; simp at hb
    | some vb =>
      rw [hga] at ha
      rw [hgb] at hb
      cases va <;> simp at ha
      cases vb <;> simp at hb
      exact ⟨_, rfl⟩

theorem insertBeforeM_ok (before : Doc → Doc → Except ApiError Bool)
    (P : Doc → Prop)
    (hcmp : ∀ a b, P a → P b → ∃ r, before a b = .ok r)
    (x : Doc) (l : List Doc) (hx : P x) (hl : ∀ y ∈ l, P y) :
    ∃ out, insertBeforeM before x l = .ok out ∧ ∀ y ∈ out, P y := by
  induction l with
  | nil =>
    refine ⟨[x], rfl, ?_⟩
    intro y hy
    rw [List.mem_singleton.mp hy]
    exact hx
  | cons y ys ih =>
    obtain ⟨b, hb⟩ := hcmp x y hx (hl y (by simp))
    obtain ⟨out', hout', hP'⟩ := ih (fun z hz => hl z (by simp [hz]))
    cases b with
    | true =>
      refine ⟨x :: y :: ys, ?_, ?_⟩
      · simp only [insertBeforeM, hb]
        rfl
      · intro z hz
        rcases List.mem_cons.mp hz with h1 | h1
        · rw [h1]; exact hx
        · exact hl z h1
    | false =>
      refine ⟨y :: out', ?_, ?_⟩
      · simp only [insertBeforeM, hb, hout']
        rfl
      · intro z hz
        rcases List.mem_cons.mp hz with h1 | h1
        · rw [h1]; exact hl y (by simp)
        · exact hP' z h1

theorem foldlM_insert_ok (before : Doc → Doc → Except ApiError Bool)
    (P : Doc → Prop)
    (hcmp : ∀ a b, P a → P b → ∃ r, before a b = .ok r) :
    ∀ (l acc : List Doc), (∀ y ∈ l, P y) → (∀ y ∈ acc, P y) →
      ∃ out, List.foldlM (fun acc x => insertBeforeM before x acc) acc l = .ok out ∧
        ∀ y ∈ out, P y := by
  intro l
  induction l with
  | nil =>
    intro acc _ hacc
    exact ⟨acc, rfl, hacc⟩
  | cons x xs ih =>
    intro acc hl hacc
    obtain ⟨out1, hout1, hP1⟩ :=
      insertBeforeM_ok before P hcmp x acc (hl x (by simp)) hacc
    obtain ⟨out2, hout2, hP2⟩ := ih out1 (fun z hz => hl z (by simp [hz])) hP1
    refine ⟨out2, ?_, hP2⟩
    simp only [List.foldlM, hout1]
    exact hout2

theorem pySort_ok (before : Doc → Doc → Except ApiError Bool)
    (P : Doc → Prop)
    (hcmp : ∀ a b, P a → P b → ∃ r, before a b = .ok r)
    (l : List Doc) (hl : ∀ y ∈ l, P y) :
    ∃ out, pySort before l = .ok out := by
  obtain ⟨out, hout, _⟩ :=
    foldlM_insert_ok before P hcmp l [] hl (fun y hy => absurd hy (List.not_mem_nil y))
  exact ⟨out, hout⟩

theorem mem_get_documents (s : StoreState) (coll : String) (filt : Filter)
    (lim : Nat) (d : Doc) (h : d ∈ get_documents s coll filt lim) :
    (coll, d) ∈ s.docs := by
  unfold get_documents at h
  have h1 := List.mem_of_mem_take h
  rcases List.mem_map.mp h1 with ⟨cd, hcd, he⟩
  have h2 := List.mem_filter.mp hcd
  have h3 : cd.1 = coll := by
    have := h2.2
    simp only [Bool.and_eq_true, decide_eq_true_eq] at this
    exact this.1
  have : cd = (coll, d) := by
    rw [Prod.ext_iff]
    exact ⟨h3, he⟩
  rw [← this]
  exact h2.1

/-- C10: the in-memory sorts of `list_posts`, `list_comments` and
`list_offers` key on `d.get("created_at")` (a defaulting lookup).  Under the
precondition that every document of the queried collection carries a
datetime-valued `created_at`, each listing succeeds; but when one returned
document lacks `created_at` (so its key defaults to `None`) while another
carries a timestamp, the key comparison raises `TypeError` and the listing
fails instead of treating the two documents as equal. -/
theorem claim_C10 (s : StoreState) (ty tg cb : Option String) (pid : String)
    (opid ocb : Option String) (lp lc lo : Option Nat)
    (hp : ∀ cd ∈ s.docs, cd.1 = "post" → hasTimeKey cd.2 = true)
    (hc : ∀ cd ∈ s.docs, cd.1 = "comment" → hasTimeKey cd.2 = true)
    (ho : ∀ cd ∈ s.docs, cd.1 = "offer" → hasTimeKey cd.2 = true)
    (hlp : 1 ≤ lp.getD 50 ∧ lp.getD 50 ≤ 200)
    (hlc : 1 ≤ lc.getD 100 ∧ lc.getD 100 ≤ 500)
    (hlo : 1 ≤ lo.getD 100 ∧ lo.getD 100 ≤ 300) :
    (∃ l, list_posts ty tg cb lp s = .ok l) ∧
    (∃ l, list_comments pid lc s = .ok l) ∧
    (∃ l, list_offers opid ocb lo s = .ok l) ∧
    list_posts none none none none
        { docs := [("post", [("created_at", Value.time 1)]), ("post", [("n", Value.int 0)])],
          nextId := 2 }
      = .error .typeError ∧
    list_comments "p" none
        { docs := [("comment", [("post_id", Value.str "p"), ("created_at", Value.time 1)]),
                   ("comment", [("post_id", Value.str "p")])], nextId := 2 }
      = .error .typeError ∧
    list_offers none none none
        { docs := [("offer", [("created_at", Value.time 1)]), ("offer", [])], nextId := 2 }
      = .error .typeError := by
  refine ⟨?_, ?_, ?_, rfl, rfl, rfl⟩
  · obtain ⟨out, hout⟩ := pySort_ok byCreatedDesc (fun d => hasTimeKey d = true)
      byCreatedDesc_ok
      (get_documents s "post" (postsFilter ty tg cb) (lp.getD 50))
      (fun y hy => hp ("post", y) (mem_get_documents _ _ _ _ _ hy) rfl)
    refine ⟨serialize_list out, ?_⟩
    simp only [list_posts]
    rw [if_neg (by omega)]
    simp only [hout]
  · obtain ⟨out, hout⟩ := pySort_ok byCreatedAsc (fun d => hasTimeKey d = true)
      byCreatedAsc_ok
      (get_documents s "comment" (commentsFilter pid) (lc.getD 100))
      (fun y hy => hc ("comment", y) (mem_get_documents _ _ _ _ _ hy) rfl)
    refine ⟨serialize_list out, ?_⟩
    simp only [list_comments]
    rw [if_neg (by omega)]
    simp only [hout]
  · obtain ⟨out, hout⟩ := pySort_ok byCreatedDesc (fun d => hasTimeKey d = true)
      byCreatedDesc_ok
      (get_documents s "offer" (offersFilter opid ocb) (lo.getD 100))
      (fun y hy => ho ("offer", y) (mem_get_documents _ _ _ _ _ hy) rfl)
    refine ⟨serialize_list out, ?_⟩
    simp only [list_offers]
    rw [if_neg (by omega)]
    simp only [hout]

/-- Witness for C10 at a concrete store whose posts, comments and offers all
carry timestamps. -/
theorem claim_C10_witness :
    ∃ l, list_posts none none none none
        { docs := [("post", [("created_at", Value.time 5)])], nextId := 1 } = .ok l :=
  (claim_C10 { docs := [("post", [("created_at", Value.time 5)])], nextId := 1 }
      none none none "p" none none none none none
      (by decide) (by decide) (by decide) (by decide) (by decide) (by decide)).1

theorem pyLt_error (a b : Value) (e : ApiError) (h : pyLt a b = .error e) :
    e = .typeError := by
  cases a <;> cases b <;> simp [pyLt] at h <;> exact h.symm

theorem byCreatedDesc_error (a b : Doc) (e : ApiError)
    (h : byCreatedDesc a b = .error e) : e = .typeError :=
  pyLt_error _ _ _ h

theorem byCreatedAsc_error (a b : Doc) (e : ApiError)
    (h : byCreatedAsc a b = .error e) : e = .typeError :=
  pyLt_error _ _ _ h

theorem insertBeforeM_error (before : Doc → Doc → Except ApiError Bool)
    (hb : ∀ a b e, before a b = .error e → e = .typeError)
    (x : Doc) (l : List Doc) (e : ApiError)
    (h : insertBeforeM before x l = .error e) : e = .typeError := by
  induction l with
  | nil => exact Except.noConfusion h
  | cons y ys ih =>
    rw [insertBeforeM] at h
    cases hby : before x y with
    | error e' =>
      rw [hby] at h
      have he : e' = e := Except.error.inj h
      exact he ▸ hb x y e' hby
    | ok b =>
      rw [hby] at h
      cases b with
      | true => exact Except.noConfusion h
      | false =>
        cases hrec : insertBeforeM before x ys with
        | error e'' =>
          rw [hrec] at h
          have he : e'' = e := Except.error.inj h
          exact ih (he ▸ hrec)
        | ok out =>
          rw [hrec] at h
          exact Except.noConfusion h

theorem foldlM_insert_error (before : Doc → Doc → Except ApiError Bool)
    (hb : ∀ a b e, before a b = .error e → e = .typeError) :
    ∀ (l acc : List Doc) (e : ApiError),
      List.foldlM (fun acc x => insertBeforeM before x acc) acc l = .error e →
        e = .typeError := by
  intro l
  induction l with
  | nil => intro acc e h; exact Except.noConfusion h
  | cons x xs ih =>
    intro acc e h
    rw [List.foldlM] at h
    cases hins : insertBeforeM before x acc with
    | error e' =>
      rw [hins] at h
      have : e' = e := Except.error.inj h
      rw [← this]
      exact insertBeforeM_error before hb x acc e' hins
    | ok out =>
      rw [hins] at h
      exact ih out e h

theorem pySort_error (before : Doc → Doc → Except ApiError Bool)
    (hb : ∀ a b e, before a b = .error e → e = .typeError)
    (l : List Doc) (e : ApiError) (h : pySort before l = .error e) :
    e = .typeError :=
  foldlM_insert_error before hb l [] e h

theorem list_posts_error (ty tg cb : Option String) (lim : Option Nat)
    (s : StoreState) (e : ApiError) (h : list_posts ty tg cb lim s = .error e) :
    e = .validation ["limit"] ∨ e = .typeError := by
  simp only [list_posts] at h
  by_cases hlim : lim.getD 50 < 1 ∨ 200 < lim.getD 50
  · rw [if_pos hlim] at h
    exact Or.inl (Except.error.inj h).symm
  · rw [if_neg hlim] at h
    cases hs : pySort byCreatedDesc
        (get_documents s "post" (postsFilter ty tg cb) (lim.getD 50)) with
    | ok out => rw [hs] at h; exact Except.noConfusion h
    | error e' =>
      rw [hs] at h
      have : e' = e := Except.error.inj h
      exact Or.inr (this ▸ pySort_error byCreatedDesc byCreatedDesc_error _ e' hs)

theorem list_comments_error (pid : String) (lim : Option Nat)
    (s : StoreState) (e : ApiError) (h : list_comments pid lim s = .error e) :
    e = .validation ["limit"] ∨ e = .typeError := by
  simp only [list_comments] at h
  by_cases hlim : lim.getD 100 < 1 ∨ 500 < lim.getD 100
  · rw [if_pos hlim] at h
    exact Or.inl (Except.error.inj h).symm
  · rw [if_neg hlim] at h
    cases hs : pySort byCreatedAsc
        (get_documents s "comment" (commentsFilter pid) (lim.getD 100)) with
    | ok out => rw [hs] at h; exact Except.noConfusion h
    | error e' =>
      rw [hs] at h
      have : e' = e := Except.error.inj h
      exact Or.inr (this ▸ pySort_error byCreatedAsc byCreatedAsc_error _ e' hs)

theorem list_offers_error (opid ocb : Option String) (lim : Option Nat)
    (s : StoreState) (e : ApiError) (h : list_offers opid ocb lim s = .error e) :
    e = .validation ["limit"] ∨ e = .typeError := by
  simp only [list_offers] at h
  by_cases hlim : lim.getD 100 < 1 ∨ 300 < lim.getD 100
  · rw [if_pos hlim] at h
    exact Or.inl (Except.error.inj h).symm
  · rw [if_neg hlim] at h
    cases hs : pySort byCreatedDesc
        (get_documents s "offer" (offersFilter opid ocb) (lim.getD 100)) with
    | ok out => rw [hs] at h; exact Except.noConfusion h
    | error e' =>
      rw [hs] at h
      have : e' = e := Except.error.inj h
      exact Or.inr (this ▸ pySort_error byCreatedDesc byCreatedDesc_error _ e' hs)

theorem get_documents_nomatch (s : StoreState) (coll : String) (filt : Filter)
    (lim : Nat)
    (h : ∀ cd ∈ s.docs, cd.1 = coll → matchesFilter filt cd.2 = false) :
    get_documents s coll filt lim = [] := by
  unfold get_documents
  have hfil : s.docs.filter (fun cd => cd.1 = coll && matchesFilter filt cd.2) = [] := by
    rw [List.filter_eq_nil_iff]
    intro cd hcd
    simp only [Bool.and_eq_true, decide_eq_true_eq, not_and]
    intro h1 h2
    rw [h cd hcd h1] at h2
    exact Bool.noConfusion h2
  rw [hfil]
  simp

/-- C8: a query whose filter matches no document returns the empty sequence
and never raises: at the adapter (`get_documents`) for every collection and
filter, and at each list endpoint for the filter it builds (with an in-range
limit).  Moreover no list endpoint ever produces a `notFound` error: the only
errors any of them can surface are limit-validation and sort `TypeError`. -/
theorem claim_C8 (s : StoreState) (coll : String) (filt : Filter) (lim : Nat)
    (role ty tg cb : Option String) (pid : String) (opid ocb : Option String)
    (lp lc lo : Option Nat)
    (hgen : ∀ cd ∈ s.docs, cd.1 = coll → matchesFilter filt cd.2 = false)
    (hu : ∀ cd ∈ s.docs, cd.1 = "user" → matchesFilter (usersFilter role) cd.2 = false)
    (hpo : ∀ cd ∈ s.docs, cd.1 = "post" → matchesFilter (postsFilter ty tg cb) cd.2 = false)
    (hcm : ∀ cd ∈ s.docs, cd.1 = "comment" → matchesFilter (commentsFilter pid) cd.2 = false)
    (hof : ∀ cd ∈ s.docs, cd.1 = "offer" → matchesFilter (offersFilter opid ocb) cd.2 = false)
    (hlp : 1 ≤ lp.getD 50 ∧ lp.getD 50 ≤ 200)
    (hlc : 1 ≤ lc.getD 100 ∧ lc.getD 100 ≤ 500)
    (hlo : 1 ≤ lo.getD 100 ∧ lo.getD 100 ≤ 300) :
    get_documents s coll filt lim = [] ∧
    list_users role s = [] ∧
    list_posts ty tg cb lp s = .ok [] ∧
    list_comments pid lc s = .ok [] ∧
    list_offers opid ocb lo s = .ok [] ∧
    (∀ (ty2 tg2 cb2 : Option String) (l2 : Option Nat) (s2 : StoreState) (e : ApiError),
      list_posts ty2 tg2 cb2 l2 s2 = .error e → e ≠ .notFound) ∧
    (∀ (p2 : String) (l2 : Option Nat) (s2 : StoreState) (e : ApiError),
      list_comments p2 l2 s2 = .error e → e ≠ .notFound) ∧
    (∀ (o2 c2 : Option String) (l2 : Option Nat) (s2 : StoreState) (e : ApiError),
      list_offers o2 c2 l2 s2 = .error e → e ≠ .notFound) := by
  refine ⟨get_documents_nomatch s coll filt lim hgen, ?_, ?_, ?_, ?_, ?_, ?_, ?_⟩
  · simp only [list_users]
    rw [get_documents_nomatch s "user" _ 200 hu]
    rfl
  · simp only [list_posts]
    rw [if_neg (by omega)]
    rw [get_documents_nomatch s "post" _ _ hpo]
    rfl
  · simp only [list_comments]
    rw [if_neg (by omega)]
    rw [get_documents_nomatch s "comment" _ _ hcm]
    rfl
  · simp only [list_offers]
    rw [if_neg (by omega)]
    rw [get_documents_nomatch s "offer" _ _ hof]
    rfl
  · intro ty2 tg2 cb2 l2 s2 e he
    rcases list_posts_error ty2 tg2 cb2 l2 s2 e he with h1 | h1 <;> simp [h1]
  · intro p2 l2 s2 e he
    rcases list_comments_error p2 l2 s2 e he with h1 | h1 <;> simp [h1]
  · intro o2 c2 l2 s2 e he
    rcases list_offers_error o2 c2 l2 s2 e he with h1 | h1 <;> simp [h1]

/-- Witness for C8: one stored student user; filters for role `"professor"`
and for a post id no comment has match nothing and yield empty listings. -/
theorem claim_C8_witness :
    list_users (some "professor")
        { docs := [("user", [("role", Value.str "student")])], nextId := 1 } = [] ∧
    list_comments "nope" none
        { docs := [("user", [("role", Value.str "student")])], nextId := 1 } = .ok [] := by
  have h := claim_C8 { docs := [("user", [("role", Value.str "student")])], nextId := 1 }
      "user" [("role", Cond.eq (Value.str "professor"))] 7
      (some "professor") none none none "nope" none none none none none
      (by decide) (by decide) (by decide) (by decide) (by decide)
      (by decide) (by decide) (by decide)
  exact ⟨h.2.1, h.2.2.2.1⟩

theorem length_get_documents_le (s : StoreState) (coll : String) (filt : Filter)
    (lim : Nat) : (get_documents s coll filt lim).length ≤ lim := by
  unfold get_documents
  exact List.length_take_le _ _

theorem insertBeforeM_length (before : Doc → Doc → Except ApiError Bool)
    (x : Doc) (l : List Doc) (out : List Doc)
    (h : insertBeforeM before x l = .ok out) : out.length = l.length + 1 := by
  induction l generalizing out with
  | nil =>
    have : [x] = out := Except.ok.inj h
    rw [← this]
    rfl
  | cons y ys ih =>
    rw [insertBeforeM] at h
    cases hby : before x y with
    | error e => rw [hby] at h; exact Except.noConfusion h
    | ok b =>
      rw [hby] at h
      cases b with
      | true =>
        have : x :: y :: ys = out := Except.ok.inj h
        rw [← this]
        rfl
      | false =>
        cases hrec : insertBeforeM before x ys with
        | error e => rw [hrec] at h; exact Except.noConfusion h
        | ok out' =>
          rw [hrec] at h
          have : y :: out' = out := Except.ok.inj h
          rw [← this]
          simp [ih out' hrec]

theorem foldlM_insert_length (before : Doc → Doc → Except ApiError Bool) :
    ∀ (l acc out : List Doc),
      List.foldlM (fun acc x => insertBeforeM before x acc) acc l = .ok out →
        out.length = acc.length + l.length := by
  intro l
  induction l with
  | nil =>
    intro acc out h
    have : acc = out := Except.ok.inj h
    rw [← this]
    rfl
  | cons x xs ih =>
    intro acc out h
    rw [List.foldlM] at h
    cases hins : insertBeforeM before x acc with
    | error e => rw [hins] at h; exact Except.noConfusion h
    | ok out1 =>
      rw [hins] at h
      have h1 := insertBeforeM_length before x acc out1 hins
      have h2 := ih out1 out h
      rw [h2, h1]
      simp
      omega

theorem pySort_length (before : Doc → Doc → Except ApiError Bool)
    (docs out : List Doc) (h : pySort before docs = .ok out) :
    out.length = docs.length := by
  have := foldlM_insert_length before docs [] out h
  simpa using this

/-- C5 (amended): the Posts, Comments and Offers list operations accept a
result-count parameter, defaulting to 50, 100 and 100 and accepted only within
1–200, 1–500 and 1–300 respectively, and return at most that many documents;
the Users list operation accepts no result-count parameter and always queries
with the fixed limit 200, so it returns at most 200 documents.  Every query is
therefore bounded — never unbounded. -/
theorem claim_C5 (s : StoreState) (role ty tg cb opid ocb : Option String)
    (pid : String) (lp lc lo : Option Nat) (resP resC resO : List Doc) :
    (list_users role s).length ≤ 200 ∧
    (list_posts ty tg cb lp s = .ok resP →
      resP.length ≤ lp.getD 50 ∧ lp.getD 50 ≤ 200) ∧
    (list_comments pid lc s = .ok resC →
      resC.length ≤ lc.getD 100 ∧ lc.getD 100 ≤ 500) ∧
    (list_offers opid ocb lo s = .ok resO →
      resO.length ≤ lo.getD 100 ∧ lo.getD 100 ≤ 300) := by
  refine ⟨?_, ?_, ?_, ?_⟩
  · simp only [list_users, serialize_list, List.length_map]
    exact length_get_documents_le s "user" (usersFilter role) 200
  · intro hok
    simp only [list_posts] at hok
    by_cases hlim : lp.getD 50 < 1 ∨ 200 < lp.getD 50
    · rw [if_pos hlim] at hok
      exact Except.noConfusion hok
    · refine ⟨?_, by omega⟩
      rw [if_neg hlim] at hok
      cases hs : pySort byCreatedDesc
          (get_documents s "post" (postsFilter ty tg cb) (lp.getD 50)) with
      | error e => rw [hs] at hok; exact Except.noConfusion hok
      | ok sorted =>
        rw [hs] at hok
        have he : serialize_list sorted = resP := Except.ok.inj hok
        rw [← he, serialize_list, List.length_map,
          pySort_length byCreatedDesc _ sorted hs]
        exact length_get_documents_le s "post" _ _
  · intro hok
    simp only [list_comments] at hok
    by_cases hlim : lc.getD 100 < 1 ∨ 500 < lc.getD 100
    · rw [if_pos hlim] at hok
      exact Except.noConfusion hok
    · refine ⟨?_, by omega⟩
      rw [if_neg hlim] at hok
      cases hs : pySort byCreatedAsc
          (get_documents s "comment" (commentsFilter pid) (lc.getD 100)) with
      | error e => rw [hs] at hok; exact Except.noConfusion hok
      | ok sorted =>
        rw [hs] at hok
        have he : serialize_list sorted = resC := Except.ok.inj hok
        rw [← he, serialize_list, List.length_map,
          pySort_length byCreatedAsc _ sorted hs]
        exact length_get_documents_le s "comment" _ _
  · intro hok
    simp only [list_offers] at hok
    by_cases hlim : lo.getD 100 < 1 ∨ 300 < lo.getD 100
    · rw [if_pos hlim] at hok
      exact Except.noConfusion hok
    · refine ⟨?_, by omega⟩
      rw [if_neg hlim] at hok
      cases hs : pySort byCreatedDesc
          (get_documents s "offer" (offersFilter opid ocb) (lo.getD 100)) with
      | error e => rw [hs] at hok; exact Except.noConfusion hok
      | ok sorted =>
        rw [hs] at hok
        have he : serialize_list sorted = resO := Except.ok.inj hok
        rw [← he, serialize_list, List.length_map,
          pySort_length byCreatedDesc _ sorted hs]
        exact length_get_documents_le s "offer" _ _

/-- Counterexample for C5: `list_users` takes no result-count parameter at all
(its only parameter is the `role` filter; see its definition and
`src/main.py` line 85) — the limit is the hard-coded constant 200, so on a
store with 201 matching users every possible call returns exactly 200
documents and no caller-supplied bound exists, refuting "every per-entity
list operation accepts a bounded result-count parameter". -/
theorem claim_C5_counterexample :
    (list_users none { docs := List.replicate 201 ("user", []), nextId := 0 }).length
      = 200 ∧
    (list_users (some "x") { docs := List.replicate 201 ("user", []), nextId := 0 }).length
      = 0 := by
  constructor <;> rfl

/-- Witness for C5 at a concrete store of two posts queried with limit 1:
the returned listing has at most one document. -/
theorem claim_C5_witness :
    ([[(("created_at" : String), Value.time 1)]] : List Doc).length ≤ 1 :=
  ((claim_C5 { docs := [("post", [("created_at", Value.time 1)]),
      ("post", [("created_at", Value.time 2)])], nextId := 2 }
    none none none none none none "p" (some 1) none none
    [[(("created_at" : String), Value.time 1)]] [] []).2.1 (by rfl)).1

theorem matches_tag_filter (d : Doc) (tags : List String) (t : String)
    (hget : dictGet d "tags" = some (Value.strList tags)) :
    (matchesFilter [("tags", Cond.inSet [Value.str t])] d = true ↔ t ∈ tags) := by
  simp only [matchesFilter, List.all_cons, List.all_nil, Bool.and_true, hget,
    condMatches, List.any_eq_true, List.any_cons, List.any_nil, Bool.or_false,
    decide_eq_true_eq, Value.str.injEq]
  constructor
  · rintro ⟨x, hx, he⟩
    rw [he]
    exact hx
  · intro hmem
    exact ⟨t, hmem, rfl⟩

theorem list_posts_tag_eval (p : Post) (now : Nat) (t : String) (ht : t ≠ "") :
    list_posts none (some t) none none (create_post p now emptyStore).2
      = .ok (if t ∈ p.tags
          then [serialize_doc
            (p.toDoc ++ [("created_at", Value.time now), ("_id", Value.oid 0)])]
          else []) := by
  have hfilt : postsFilter none (some t) none = [("tags", Cond.inSet [Value.str t])] := by
    simp [postsFilter, ht]
  have hget : dictGet (p.toDoc ++ [("created_at", Value.time now), ("_id", Value.oid 0)])
      "tags" = some (Value.strList p.tags) := by
    simp [Post.toDoc, dictGet]
  simp only [list_posts]
  rw [if_neg (by decide), hfilt]
  by_cases hmem : t ∈ p.tags
  · have hm := (matches_tag_filter _ p.tags t hget).mpr hmem
    have hdocs : get_documents (create_post p now emptyStore).2 "post"
        [("tags", Cond.inSet [Value.str t])] ((none : Option Nat).getD 50)
        = [p.toDoc ++ [("created_at", Value.time now), ("_id", Value.oid 0)]] := by
      simp [get_documents, create_post, create_document, emptyStore, hm]
    rw [hdocs]
    simp [pySort, List.foldlM, insertBeforeM, serialize_list, hmem]
  · have hm : matchesFilter [("tags", Cond.inSet [Value.str t])]
        (p.toDoc ++ [("created_at", Value.time now), ("_id", Value.oid 0)]) = false := by
      rw [Bool.eq_false_iff]
      intro hc
      exact hmem ((matches_tag_filter _ p.tags t hget).mp hc)
    have hdocs : get_documents (create_post p now emptyStore).2 "post"
        [("tags", Cond.inSet [Value.str t])] ((none : Option Nat).getD 50) = [] := by
      simp [get_documents, create_post, create_document, emptyStore, hm]
    rw [hdocs]
    simp [pySort, List.foldlM, serialize_list, hmem]
    rfl

/-- C6: a Post whose `tags` sequence is `["a", "b"]`, inserted alone, is
returned by the tag-filtered listing for tag `"a"` and for tag `"b"` but not
for tag `"c"`; and in general the `{"$in": [tag]}` tag filter is exactly
set-membership in the post's `tags` sequence (for any tag, including tags the
endpoint would drop as falsy). -/
theorem claim_C6 (p : Post) (now : Nat) (htags : p.tags = ["a", "b"])
    (tagq : String) (d : Doc) (tags : List String)
    (hget : dictGet d "tags" = some (Value.strList tags)) :
    (list_posts none (some "a") none none (create_post p now emptyStore).2
      = .ok [serialize_doc
          (p.toDoc ++ [("created_at", Value.time now), ("_id", Value.oid 0)])]) ∧
    (list_posts none (some "b") none none (create_post p now emptyStore).2
      = .ok [serialize_doc
          (p.toDoc ++ [("created_at", Value.time now), ("_id", Value.oid 0)])]) ∧
    (list_posts none (some "c") none none (create_post p now emptyStore).2 = .ok []) ∧
    (matchesFilter [("tags", Cond.inSet [Value.str tagq])] d = true ↔ tagq ∈ tags) := by
  refine ⟨?_, ?_, ?_, matches_tag_filter d tags tagq hget⟩
  · rw [list_posts_tag_eval p now "a" (by decide), if_pos (by rw [htags]; decide)]
  · rw [list_posts_tag_eval p now "b" (by decide), if_pos (by rw [htags]; decide)]
  · rw [list_posts_tag_eval p now "c" (by decide), if_neg (by rw [htags]; decide)]

/-- Witness for C6 at a concrete post with tags `["a", "b"]`. -/
theorem claim_C6_witness :
    list_posts none (some "c") none none
        (create_post
          { type := .question, title := "t", content := "k",
            tags := ["a", "b"], created_by := "u" } 4 emptyStore).2 = .ok [] :=
  (claim_C6
      { type := .question, title := "t", content := "k",
        tags := ["a", "b"], created_by := "u" } 4 rfl "a"
      [("tags", Value.strList ["a"])] ["a"] (by decide)).2.2.1

/-- The exact-match filter on all of a record's fields ("a filter matching
that record's fields"). -/
def eqFilter (d : Doc) : Filter :=
  d.map (fun p => (p.1, Cond.eq p.2))

theorem convertOid_optStr (o : Option String) : convertOid (optStr o) = optStr o := by
  cases o <;> rfl

theorem dictRemove_append (d1 d2 : Doc) (k : String) :
    dictRemove (d1 ++ d2) k = dictRemove d1 k ++ dictRemove d2 k := by
  induction d1 with
  | nil => rfl
  | cons p ps ih =>
    by_cases hp : p.1 = k <;> simp [dictRemove, hp, ih]

theorem dictRemove_of_not_has (d : Doc) (k : String) (h : dictHas d k = false) :
    dictRemove d k = d := by
  induction d with
  | nil => rfl
  | cons p ps ih =>
    by_cases hp : p.1 = k
    · rw [dictHas, if_pos hp] at h
      exact Bool.noConfusion h
    · rw [dictHas, if_neg hp] at h
      rw [dictRemove, if_neg hp, ih h]

theorem dictHas_append (d1 d2 : Doc) (k : String) :
    dictHas (d1 ++ d2) k = (dictHas d1 k || dictHas d2 k) := by
  induction d1 with
  | nil => rfl
  | cons p ps ih =>
    by_cases hp : p.1 = k <;> simp [dictHas, hp, ih]

theorem serialize_doc_stored (rec : Doc) (t n : Nat)
    (hno : dictHas rec "_id" = false)
    (hid : dictHas rec "id" = false)
    (hfix : ∀ p ∈ rec, convertOid p.2 = p.2) :
    serialize_doc (rec ++ [("created_at", Value.time t), ("_id", Value.oid n)])
      = rec ++ [("created_at", Value.time t), ("id", Value.str (oidToString n))] := by
  have hmap : (rec ++ [("created_at", Value.time t), ("_id", Value.oid n)]).map
        (fun p => (p.1, convertOid p.2))
      = rec ++ [("created_at", Value.time t), ("_id", Value.str (oidToString n))] := by
    rw [List.map_append, map_convert_fix rec hfix]
    rfl
  have hget : dictGet ((rec ++ [("created_at", Value.time t), ("_id", Value.oid n)]).map
        (fun p => (p.1, convertOid p.2))) "_id" = some (Value.str (oidToString n)) := by
    rw [hmap, dictGet_append_of_none _ _ _ ((dictHas_eq_false_iff rec "_id").mp hno)]
    rfl
  rw [serialize_doc_eq_some _ _ hget, hmap, dictRemove_append,
    dictRemove_of_not_has rec "_id" hno]
  have hrem : dictRemove [(("created_at" : String), Value.time t),
      ("_id", Value.str (oidToString n))] "_id"
      = [(("created_at" : String), Value.time t)] := by
    simp [dictRemove]
  rw [hrem]
  have hhas : dictHas (rec ++ [(("created_at" : String), Value.time t)]) "id" = false := by
    rw [dictHas_append, hid]
    rfl
  rw [dictSet_of_not_has _ _ _ hhas, List.append_assoc]
  rfl

theorem matchesFilter_eqFilter_self (rec extra : Doc)
    (hkeys : ∀ (k : String) (v : Value), (k, v) ∈ rec → dictGet rec k = some v) :
    matchesFilter (eqFilter rec) (rec ++ extra) = true := by
  rw [matchesFilter, List.all_eq_true]
  intro kc hkc
  rcases List.mem_map.mp hkc with ⟨q, hq, he⟩
  rw [← he]
  have : dictGet (rec ++ extra) q.1 = some q.2 :=
    dictGet_append_of_some _ _ _ _ (hkeys q.1 q.2 hq)
  simp [condMatches, this]

theorem get_documents_single (coll : String) (doc : Doc) (nid lim : Nat)
    (filt : Filter) (hm : matchesFilter filt doc = true) (hlim : 1 ≤ lim) :
    get_documents { docs := [(coll, doc)], nextId := nid } coll filt lim = [doc] := by
  unfold get_documents
  simp only [List.filter_cons, List.filter_nil]
  rw [hm]
  simp only [decide_eq_true_eq, decide_True, Bool.and_true]
  rw [if_pos (by simp)]
  simp only [List.map_cons, List.map_nil]
  exact List.take_of_length_le (by simp [hlim])

/-- C1: for each of the four entity types, inserting a valid record and then
querying its collection with the exact-match filter on all the record's
fields returns exactly one document, equal to the inserted record's fields
followed by the server-assigned `created_at` and the identifier — rendered as
a string under the public name `id`; the create operation returns that same
identifier string. -/
theorem claim_C1 (u : User) (p : Post) (c : Comment) (o : Offer) (now : Nat) :
    (serialize_list (get_documents (create_user u now emptyStore).2 "user"
        (eqFilter u.toDoc) 200)
      = [u.toDoc ++ [("created_at", Value.time now),
          ("id", Value.str (oidToString 0))]] ∧
      (create_user u now emptyStore).1 = oidToString 0) ∧
    (serialize_list (get_documents (create_post p now emptyStore).2 "post"
        (eqFilter p.toDoc) 200)
      = [p.toDoc ++ [("created_at", Value.time now),
          ("id", Value.str (oidToString 0))]] ∧
      (create_post p now emptyStore).1 = oidToString 0) ∧
    (serialize_list (get_documents (create_comment c now emptyStore).2 "comment"
        (eqFilter c.toDoc) 200)
      = [c.toDoc ++ [("created_at", Value.time now),
          ("id", Value.str (oidToString 0))]] ∧
      (create_comment c now emptyStore).1 = oidToString 0) ∧
    (serialize_list (get_documents (create_offer o now emptyStore).2 "offer"
        (eqFilter o.toDoc) 200)
      = [o.toDoc ++ [("created_at", Value.time now),
          ("id", Value.str (oidToString 0))]] ∧
      (create_offer o now emptyStore).1 = oidToString 0) := by
  refine ⟨⟨?_, rfl⟩, ⟨?_, rfl⟩, ⟨?_, rfl⟩, ⟨?_, rfl⟩⟩
  · have hkeys : ∀ (k : String) (v : Value), (k, v) ∈ u.toDoc →
        dictGet u.toDoc k = some v := by
      intro k v hkv
      simp only [User.toDoc, List.mem_cons, List.not_mem_nil, or_false,
        Prod.mk.injEq] at hkv
      rcases hkv with ⟨h1, h2⟩ | ⟨h1, h2⟩ | ⟨h1, h2⟩ | ⟨h1, h2⟩ | ⟨h1, h2⟩
        | ⟨h1, h2⟩ | ⟨h1, h2⟩ | ⟨h1, h2⟩ <;>
        subst h1 <;> subst h2 <;> simp [User.toDoc, dictGet]
    have hfix : ∀ q ∈ u.toDoc, convertOid q.2 = q.2 := by
      intro q hq
      simp only [User.toDoc, List.mem_cons, List.not_mem_nil, or_false] at hq
      rcases hq with h | h | h | h | h | h | h | h <;>
        rw [h] <;> first | exact convertOid_optStr _ | rfl
    have hm := matchesFilter_eqFilter_self u.toDoc
      [("created_at", Value.time now), ("_id", Value.oid 0)] hkeys
    have hs : (create_user u now emptyStore).2
        = { docs := [("user", u.toDoc ++ [("created_at", Value.time now),
            ("_id", Value.oid 0)])], nextId := 1 } := rfl
    rw [hs, get_documents_single "user" _ 1 200 _ hm (by decide), serialize_list,
      List.map_cons, List.map_nil,
      serialize_doc_stored u.toDoc now 0 (by simp [User.toDoc, dictHas])
        (by simp [User.toDoc, dictHas]) hfix]
  · have hkeys : ∀ (k : String) (v : Value), (k, v) ∈ p.toDoc →
        dictGet p.toDoc k = some v := by
      intro k v hkv
      simp only [Post.toDoc, List.mem_cons, List.not_mem_nil, or_false,
        Prod.mk.injEq] at hkv
      rcases hkv with ⟨h1, h2⟩ | ⟨h1, h2⟩ | ⟨h1, h2⟩ | ⟨h1, h2⟩ | ⟨h1, h2⟩ <;>
        subst h1 <;> subst h2 <;> simp [Post.toDoc, dictGet]
    have hfix : ∀ q ∈ p.toDoc, convertOid q.2 = q.2 := by
      intro q hq
      simp only [Post.toDoc, List.mem_cons, List.not_mem_nil, or_false] at hq
      rcases hq with h | h | h | h | h <;>
        rw [h] <;> first | exact convertOid_optStr _ | rfl
    have hm := matchesFilter_eqFilter_self p.toDoc
      [("created_at", Value.time now), ("_id", Value.oid 0)] hkeys
    have hs : (create_post p now emptyStore).2
        = { docs := [("post", p.toDoc ++ [("created_at", Value.time now),
            ("_id", Value.oid 0)])], nextId := 1 } := rfl
    rw [hs, get_documents_single "post" _ 1 200 _ hm (by decide), serialize_list,
      List.map_cons, List.map_nil,
      serialize_doc_stored p.toDoc now 0 (by simp [Post.toDoc, dictHas])
        (by simp [Post.toDoc, dictHas]) hfix]
  · have hkeys : ∀ (k : String) (v : Value), (k, v) ∈ c.toDoc →
        dictGet c.toDoc k = some v := by
      intro k v hkv
      simp only [Comment.toDoc, List.mem_cons, List.not_mem_nil, or_false,
        Prod.mk.injEq] at hkv
      rcases hkv with ⟨h1, h2⟩ | ⟨h1, h2⟩ | ⟨h1, h2⟩ | ⟨h1, h2⟩ <;>
        subst h1 <;> subst h2 <;> simp [Comment.toDoc, dictGet]
    have hfix : ∀ q ∈ c.toDoc, convertOid q.2 = q.2 := by
      intro q hq
      simp only [Comment.toDoc, List.mem_cons, List.not_mem_nil, or_false] at hq
      rcases hq with h | h | h | h <;>
        rw [h] <;> first | exact convertOid_optStr _ | rfl
    have hm := matchesFilter_eqFilter_self c.toDoc
      [("created_at", Value.time now), ("_id", Value.oid 0)] hkeys
    have hs : (create_comment c now emptyStore).2
        = { docs := [("comment", c.toDoc ++ [("created_at", Value.time now),
            ("_id", Value.oid 0)])], nextId := 1 } := rfl
    rw [hs, get_documents_single "comment" _ 1 200 _ hm (by decide), serialize_list,
      List.map_cons, List.map_nil,
      serialize_doc_stored c.toDoc now 0 (by simp [Comment.toDoc, dictHas])
        (by simp [Comment.toDoc, dictHas]) hfix]
  · have hkeys : ∀ (k : String) (v : Value), (k, v) ∈ o.toDoc →
        dictGet o.toDoc k = some v := by
      intro k v hkv
      simp only [Offer.toDoc, List.mem_cons, List.not_mem_nil, or_false,
        Prod.mk.injEq] at hkv
      rcases hkv with ⟨h1, h2⟩ | ⟨h1, h2⟩ | ⟨h1, h2⟩ | ⟨h1, h2⟩ | ⟨h1, h2⟩
        | ⟨h1, h2⟩ <;>
        subst h1 <;> subst h2 <;> simp [Offer.toDoc, dictGet]
    have hfix : ∀ q ∈ o.toDoc, convertOid q.2 = q.2 := by
      intro q hq
      simp only [Offer.toDoc, List.mem_cons, List.not_mem_nil, or_false] at hq
      rcases hq with h | h | h | h | h | h <;>
        rw [h] <;> first | exact convertOid_optStr _ | rfl
    have hm := matchesFilter_eqFilter_self o.toDoc
      [("created_at", Value.time now), ("_id", Value.oid 0)] hkeys
    have hs : (create_offer o now emptyStore).2
        = { docs := [("offer", o.toDoc ++ [("created_at", Value.time now),
            ("_id", Value.oid 0)])], nextId := 1 } := rfl
    rw [hs, get_documents_single "offer" _ 1 200 _ hm (by decide), serialize_list,
      List.map_cons, List.map_nil,
      serialize_doc_stored o.toDoc now 0 (by simp [Offer.toDoc, dictHas])
        (by simp [Offer.toDoc, dictHas]) hfix]

theorem ok_bind {α β : Type} (x : α) (f : α → Except ApiError β) :
    (Except.ok x >>= f) = f x := rfl

theorem pySort_desc3 (d1 d2 d3 : Doc) (t1 t2 t3 : Nat)
    (hk1 : docGetD d1 "created_at" = Value.time t1)
    (hk2 : docGetD d2 "created_at" = Value.time t2)
    (hk3 : docGetD d3 "created_at" = Value.time t3)
    (h12 : t1 < t2) (h23 : t2 < t3) :
    pySort byCreatedDesc [d1, d2, d3] = .ok [d3, d2, d1] := by
  have hb21 : byCreatedDesc d2 d1 = .ok true := by
    rw [byCreatedDesc, hk1, hk2]
    simp [pyLt, h12]
  have hb32 : byCreatedDesc d3 d2 = .ok true := by
    rw [byCreatedDesc, hk2, hk3]
    simp [pyLt, h23]
  have i1 : insertBeforeM byCreatedDesc d2 [d1] = .ok [d2, d1] := by
    simp only [insertBeforeM, hb21, ok_bind]
    rfl
  have i2 : insertBeforeM byCreatedDesc d3 [d2, d1] = .ok [d3, d2, d1] := by
    simp only [insertBeforeM, hb32, ok_bind]
    rfl
  have step : pySort byCreatedDesc [d1, d2, d3]
      = (insertBeforeM byCreatedDesc d2 [d1] >>= fun s2 =>
          insertBeforeM byCreatedDesc d3 s2 >>= fun s3 =>
            (pure s3 : Except ApiError (List Doc))) := rfl
  rw [step, i1, ok_bind, i2, ok_bind]
  rfl

theorem pySort_asc3 (d1 d2 d3 : Doc) (t1 t2 t3 : Nat)
    (hk1 : docGetD d1 "created_at" = Value.time t1)
    (hk2 : docGetD d2 "created_at" = Value.time t2)
    (hk3 : docGetD d3 "created_at" = Value.time t3)
    (h12 : t1 < t2) (h23 : t2 < t3) :
    pySort byCreatedAsc [d1, d2, d3] = .ok [d1, d2, d3] := by
  have hb21 : byCreatedAsc d2 d1 = .ok false := by
    rw [byCreatedAsc, hk1, hk2]
    simp [pyLt]
    omega
  have hb31 : byCreatedAsc d3 d1 = .ok false := by
    rw [byCreatedAsc, hk1, hk3]
    simp [pyLt]
    omega
  have hb32 : byCreatedAsc d3 d2 = .ok false := by
    rw [byCreatedAsc, hk2, hk3]
    simp [pyLt]
    omega
  have i1 : insertBeforeM byCreatedAsc d2 [d1] = .ok [d1, d2] := by
    simp only [insertBeforeM, hb21, ok_bind]
    rfl
  have i2 : insertBeforeM byCreatedAsc d3 [d1, d2] = .ok [d1, d2, d3] := by
    simp only [insertBeforeM, hb31, hb32, ok_bind]
    rfl
  have step : pySort byCreatedAsc [d1, d2, d3]
      = (insertBeforeM byCreatedAsc d2 [d1] >>= fun s2 =>
          insertBeforeM byCreatedAsc d3 s2 >>= fun s3 =>
            (pure s3 : Except ApiError (List Doc))) := rfl
  rw [step, i1, ok_bind, i2, ok_bind]
  rfl

/-- C4: three Posts inserted at distinct times `t1 < t2 < t3` are listed
newest first, `[t3, t2, t1]`; three Comments on the same post inserted at
`t1 < t2 < t3` are listed oldest first, `[t1, t2, t3]`; three Offers are,
like Posts, listed newest first. -/
theorem claim_C4 (p1 p2 p3 : Post) (c1 c2 c3 : Comment) (o1 o2 o3 : Offer)
    (t1 t2 t3 : Nat) (h12 : t1 < t2) (h23 : t2 < t3)
    (hc2 : c2.post_id = c1.post_id) (hc3 : c3.post_id = c1.post_id) :
    list_posts none none none none
        (create_post p3 t3 (create_post p2 t2 (create_post p1 t1 emptyStore).2).2).2
      = .ok [serialize_doc (p3.toDoc ++ [("created_at", Value.time t3), ("_id", Value.oid 2)]),
             serialize_doc (p2.toDoc ++ [("created_at", Value.time t2), ("_id", Value.oid 1)]),
             serialize_doc (p1.toDoc ++ [("created_at", Value.time t1), ("_id", Value.oid 0)])] ∧
    list_comments c1.post_id none
        (create_comment c3 t3 (create_comment c2 t2 (create_comment c1 t1 emptyStore).2).2).2
      = .ok [serialize_doc (c1.toDoc ++ [("created_at", Value.time t1), ("_id", Value.oid 0)]),
             serialize_doc (c2.toDoc ++ [("created_at", Value.time t2), ("_id", Value.oid 1)]),
             serialize_doc (c3.toDoc ++ [("created_at", Value.time t3), ("_id", Value.oid 2)])] ∧
    list_offers none none none
        (create_offer o3 t3 (create_offer o2 t2 (create_offer o1 t1 emptyStore).2).2).2
      = .ok [serialize_doc (o3.toDoc ++ [("created_at", Value.time t3), ("_id", Value.oid 2)]),
             serialize_doc (o2.toDoc ++ [("created_at", Value.time t2), ("_id", Value.oid 1)]),
             serialize_doc (o1.toDoc ++ [("created_at", Value.time t1), ("_id", Value.oid 0)])] := by
  refine ⟨?_, ?_, ?_⟩
  · have hs : (create_post p3 t3 (create_post p2 t2 (create_post p1 t1 emptyStore).2).2).2
        = { docs := [("post", p1.toDoc ++ [("created_at", Value.time t1), ("_id", Value.oid 0)]),
                     ("post", p2.toDoc ++ [("created_at", Value.time t2), ("_id", Value.oid 1)]),
                     ("post", p3.toDoc ++ [("created_at", Value.time t3), ("_id", Value.oid 2)])],
            nextId := 3 } := rfl
    rw [hs]
    simp only [list_posts]
    rw [if_neg (by decide)]
    have hdocs : get_documents
        { docs := [("post", p1.toDoc ++ [("created_at", Value.time t1), ("_id", Value.oid 0)]),
                   ("post", p2.toDoc ++ [("created_at", Value.time t2), ("_id", Value.oid 1)]),
                   ("post", p3.toDoc ++ [("created_at", Value.time t3), ("_id", Value.oid 2)])],
          nextId := 3 } "post" (postsFilter none none none) ((none : Option Nat).getD 50)
        = [p1.toDoc ++ [("created_at", Value.time t1), ("_id", Value.oid 0)],
           p2.toDoc ++ [("created_at", Value.time t2), ("_id", Value.oid 1)],
           p3.toDoc ++ [("created_at", Value.time t3), ("_id", Value.oid 2)]] := by
      simp [get_documents, postsFilter, matchesFilter]
    rw [hdocs, pySort_desc3 _ _ _ t1 t2 t3
      (by simp [docGetD, Post.toDoc, dictGet])
      (by simp [docGetD, Post.toDoc, dictGet])
      (by simp [docGetD, Post.toDoc, dictGet]) h12 h23]
    rfl
  · have hs : (create_comment c3 t3 (create_comment c2 t2 (create_comment c1 t1 emptyStore).2).2).2
        = { docs := [("comment", c1.toDoc ++ [("created_at", Value.time t1), ("_id", Value.oid 0)]),
                     ("comment", c2.toDoc ++ [("created_at", Value.time t2), ("_id", Value.oid 1)]),
                     ("comment", c3.toDoc ++ [("created_at", Value.time t3), ("_id", Value.oid 2)])],
            nextId := 3 } := rfl
    rw [hs]
    simp only [list_comments]
    rw [if_neg (by decide)]
    have hm1 : matchesFilter (commentsFilter c1.post_id)
        (c1.toDoc ++ [("created_at", Value.time t1), ("_id", Value.oid 0)]) = true := by
      simp [commentsFilter, matchesFilter, condMatches, Comment.toDoc, dictGet]
    have hm2 : matchesFilter (commentsFilter c1.post_id)
        (c2.toDoc ++ [("created_at", Value.time t2), ("_id", Value.oid 1)]) = true := by
      simp [commentsFilter, matchesFilter, condMatches, Comment.toDoc, dictGet, hc2]
    have hm3 : matchesFilter (commentsFilter c1.post_id)
        (c3.toDoc ++ [("created_at", Value.time t3), ("_id", Value.oid 2)]) = true := by
      simp [commentsFilter, matchesFilter, condMatches, Comment.toDoc, dictGet, hc3]
    have hdocs : get_documents
        { docs := [("comment", c1.toDoc ++ [("created_at", Value.time t1), ("_id", Value.oid 0)]),
                   ("comment", c2.toDoc ++ [("created_at", Value.time t2), ("_id", Value.oid 1)]),
                   ("comment", c3.toDoc ++ [("created_at", Value.time t3), ("_id", Value.oid 2)])],
          nextId := 3 } "comment" (commentsFilter c1.post_id) ((none : Option Nat).getD 100)
        = [c1.toDoc ++ [("created_at", Value.time t1), ("_id", Value.oid 0)],
           c2.toDoc ++ [("created_at", Value.time t2), ("_id", Value.oid 1)],
           c3.toDoc ++ [("created_at", Value.time t3), ("_id", Value.oid 2)]] := by
      simp [get_documents, hm1, hm2, hm3]
    rw [hdocs, pySort_asc3 _ _ _ t1 t2 t3
      (by simp [docGetD, Comment.toDoc, dictGet])
      (by simp [docGetD, Comment.toDoc, dictGet])
      (by simp [docGetD, Comment.toDoc, dictGet]) h12 h23]
    rfl
  · have hs : (create_offer o3 t3 (create_offer o2 t2 (create_offer o1 t1 emptyStore).2).2).2
        = { docs := [("offer", o1.toDoc ++ [("created_at", Value.time t1), ("_id", Value.oid 0)]),
                     ("offer", o2.toDoc ++ [("created_at", Value.time t2), ("_id", Value.oid 1)]),
                     ("offer", o3.toDoc ++ [("created_at", Value.time t3), ("_id", Value.oid 2)])],
            nextId := 3 } := rfl
    rw [hs]
    simp only [list_offers]
    rw [if_neg (by decide)]
    have hdocs : get_documents
        { docs := [("offer", o1.toDoc ++ [("created_at", Value.time t1), ("_id", Value.oid 0)]),
                   ("offer", o2.toDoc ++ [("created_at", Value.time t2), ("_id", Value.oid 1)]),
                   ("offer", o3.toDoc ++ [("created_at", Value.time t3), ("_id", Value.oid 2)])],
          nextId := 3 } "offer" (offersFilter none none) ((none : Option Nat).getD 100)
        = [o1.toDoc ++ [("created_at", Value.time t1), ("_id", Value.oid 0)],
           o2.toDoc ++ [("created_at", Value.time t2), ("_id", Value.oid 1)],
           o3.toDoc ++ [("created_at", Value.time t3), ("_id", Value.oid 2)]] := by
      simp [get_documents, offersFilter, matchesFilter]
    rw [hdocs, pySort_desc3 _ _ _ t1 t2 t3
      (by simp [docGetD, Offer.toDoc, dictGet])
      (by simp [docGetD, Offer.toDoc, dictGet])
      (by simp [docGetD, Offer.toDoc, dictGet]) h12 h23]
    rfl

/-- Witness for C4: three identical-bodied comments on post `"p"` inserted at
times 1, 2, 3 come back oldest first. -/
theorem claim_C4_witness :
    list_comments "p" none
        (create_comment
          { post_id := "p", content := "k", created_by := "u", parent_id := none } 3
          (create_comment
            { post_id := "p", content := "k", created_by := "u", parent_id := none } 2
            (create_comment
              { post_id := "p", content := "k", created_by := "u", parent_id := none } 1
              emptyStore).2).2).2
      = .ok [serialize_doc (Comment.toDoc
              { post_id := "p", content := "k", created_by := "u", parent_id := none }
              ++ [("created_at", Value.time 1), ("_id", Value.oid 0)]),
             serialize_doc (Comment.toDoc
              { post_id := "p", content := "k", created_by := "u", parent_id := none }
              ++ [("created_at", Value.time 2), ("_id", Value.oid 1)]),
             serialize_doc (Comment.toDoc
              { post_id := "p", content := "k", created_by := "u", parent_id := none }
              ++ [("created_at", Value.time 3), ("_id", Value.oid 2)])] := by
  have h := claim_C4
    { type := .question, title := "t", content := "k", tags := [], created_by := "u" }
    { type := .question, title := "t", content := "k", tags := [], created_by := "u" }
    { type := .question, title := "t", content := "k", tags := [], created_by := "u" }
    { post_id := "p", content := "k", created_by := "u", parent_id := none }
    { post_id := "p", content := "k", created_by := "u", parent_id := none }
    { post_id := "p", content := "k", created_by := "u", parent_id := none }
    { title := "t", description := "d", location := none, stipend := none,
      post_id := none, created_by := "u" }
    { title := "t", description := "d", location := none, stipend := none,
      post_id := none, created_by := "u" }
    { title := "t", description := "d", location := none, stipend := none,
      post_id := none, created_by := "u" }
    1 2 3 (by decide) (by decide) rfl rfl
  exact h.2.1

end CampusLink
